import Mathlib

/-!
Verification development for the learning-tracker repository.

The definitions below are a shallow embedding of the time-series
normalization and analytics engine found in `src/app.py`
(`process_raw_data`, `process_goal_data`, `analyze_data`, and the
month-view logic of `main`) and `src/generate_chart.py`
(`process_data`).  Machine floats are modelled by `ℚ` (all the
arithmetic the engine performs is exact on the values of interest),
pandas timestamps by a calendar-date record, and Python exceptions by
`Except Unit`.
-/

/-- A calendar date, as the (year, month, day) triple carried by the
pandas timestamps the engine manipulates. -/
structure CalDate where
  y : ℕ
  m : ℕ
  d : ℕ
deriving DecidableEq, Repr, Inhabited

/-- Gregorian leap-year rule, as used by Python's `calendar.monthrange`. -/
def leap (yr : ℕ) : Bool := yr % 4 == 0 && (yr % 100 != 0 || yr % 400 == 0)

/-- Number of days of month `m` of year `y` (`calendar.monthrange(y, m)[1]`). -/
def daysInMonth (yr mo : ℕ) : ℕ :=
  if mo = 2 then (if leap yr then 29 else 28)
  else if mo = 4 ∨ mo = 6 ∨ mo = 9 ∨ mo = 11 then 30
  else 31

/-- A well-formed calendar date (what `datetime` accepts). -/
def CalDate.Valid (x : CalDate) : Prop :=
  1 ≤ x.m ∧ x.m ≤ 12 ∧ 1 ≤ x.d ∧ x.d ≤ daysInMonth x.y x.m

instance (x : CalDate) : Decidable x.Valid := by
  unfold CalDate.Valid; infer_instance

/-- Chronological strict order on dates (lexicographic on (y, m, d)),
which is the order `datetime`/pandas comparisons implement. -/
def dateLt (a b : CalDate) : Prop :=
  a.y < b.y ∨ (a.y = b.y ∧ (a.m < b.m ∨ (a.m = b.m ∧ a.d < b.d)))

/-- Chronological non-strict order on dates. -/
def dateLe (a b : CalDate) : Prop :=
  a.y < b.y ∨ (a.y = b.y ∧ (a.m < b.m ∨ (a.m = b.m ∧ a.d ≤ b.d)))

instance (a b : CalDate) : Decidable (dateLt a b) := by
  unfold dateLt; infer_instance

instance (a b : CalDate) : Decidable (dateLe a b) := by
  unfold dateLe; infer_instance

/-- The calendar successor of a date (the `D` frequency step of
`DataFrame.resample`). -/
def nextDay (x : CalDate) : CalDate :=
  if x.d < daysInMonth x.y x.m then ⟨x.y, x.m, x.d + 1⟩
  else if x.m < 12 then ⟨x.y, x.m + 1, 1⟩
  else ⟨x.y + 1, 1, 1⟩

/-- Days of year `yr` strictly before month `mo`. -/
def daysBeforeMonth (yr mo : ℕ) : ℕ :=
  ((List.range (mo - 1)).map (fun k => daysInMonth yr (k + 1))).sum

/-- Days in the proleptic Gregorian years `0, …, yr - 1`. -/
def daysBeforeYear (yr : ℕ) : ℕ :=
  365 * yr + (yr + 3) / 4 - (yr + 99) / 100 + (yr + 399) / 400

/-- Absolute day number of a date; used to size the gap-filled range,
exactly as `resample("D")` materializes one row per day between the
first and last index value. -/
def CalDate.ord (x : CalDate) : ℕ :=
  daysBeforeYear x.y + daysBeforeMonth x.y x.m + x.d

/-- A Notion property value: the `type`-tagged payload found in the raw
property bags (`{"type": "date", "date": …}` and so on).  `other`
stands for any property type the engine does not inspect. -/
inductive NProp where
  | date : Option CalDate → NProp
  | number : Option ℚ → NProp
  | title : List String → NProp
  | other : NProp
deriving DecidableEq, Repr

/-- A raw activity record: the result of `props.get` on the date and
time property names (`none` when the property is absent). -/
structure RawActivity where
  dateProp : Option NProp
  timeProp : Option NProp
deriving DecidableEq, Repr

/-- A raw goal record: the month-title and goal-time properties. -/
structure RawGoal where
  monthProp : Option NProp
  goalProp : Option NProp
deriving DecidableEq, Repr

/-- A normalized activity observation: one row of the DataFrame built
by `process_raw_data` (columns `Date`, `LearningTime`). -/
structure Obs where
  Date : CalDate
  LearningTime : ℚ
deriving DecidableEq, Repr

/-- A normalized goal: one row of the DataFrame built by
`process_goal_data` (`Month` stored as year and month, `GoalTime` in
minutes). -/
structure MonthlyGoal where
  year : ℕ
  month : ℕ
  GoalTime : ℚ
deriving DecidableEq, Repr

/-- `app.py` lines 130-138: the learning-time property is read as 0
when absent or not number-typed, and `time_prop["number"] or 0` maps an
explicit null to 0. -/
def extractMinutes : Option NProp → ℚ
  | some (NProp.number (some n)) => n
  | _ => 0

/-- `app.py` lines 123-143, one loop iteration of `process_raw_data`:
a record whose date property is absent, not date-typed, or holds a null
date is skipped (`continue`); otherwise the row is kept.  No subscript
in this path can raise, hence the result is always `Except.ok`. -/
def extractActivity (r : RawActivity) : Except Unit (Option Obs) :=
  match r.dateProp with
  | none => Except.ok none
  | some (NProp.date none) => Except.ok none
  | some (NProp.date (some dt)) => Except.ok (some ⟨dt, extractMinutes r.timeProp⟩)
  | some _ => Except.ok none

/-- `app.py` `process_raw_data`: the whole batch, propagating any
exception raised while processing a record. -/
def processRawData : List RawActivity → Except Unit (List Obs)
  | [] => Except.ok []
  | r :: rest => do
    let o ← extractActivity r
    let l ← processRawData rest
    match o with
    | some x => Except.ok (x :: l)
    | none => Except.ok l

/-- `app.py` lines 165-170: goal hours default to 0 when the property is
absent or not number-typed or null, else are converted to minutes. -/
def goalMinutesOf : Option NProp → ℚ
  | some (NProp.number (some n)) => n * 60
  | _ => 0

/-- Lower-case month abbreviations recognised by
`datetime.strptime(…, "%Y-%b")` (C locale, matched case-insensitively). -/
def monthNames : List String :=
  ["jan", "feb", "mar", "apr", "may", "jun",
   "jul", "aug", "sep", "oct", "nov", "dec"]

/-- `datetime.strptime(month_str, "%Y-%b")`: exactly four digits, a
hyphen, and a three-letter month abbreviation (case-insensitive);
anything else fails to parse. -/
def parseMonth (s : String) : Option (ℕ × ℕ) :=
  match s.data with
  | [c1, c2, c3, c4, h, c5, c6, c7] =>
    if c1.isDigit && c2.isDigit && c3.isDigit && c4.isDigit && h == '-' then
      match monthNames.findIdx? (fun nm => nm == String.mk [c5.toLower, c6.toLower, c7.toLower]) with
      | some k =>
        some ((c1.toNat - 48) * 1000 + (c2.toNat - 48) * 100 +
              (c3.toNat - 48) * 10 + (c4.toNat - 48), k + 1)
      | none => none
    else none
  | _ => none

/-- `app.py` lines 158-180, one loop iteration of `process_goal_data`.
`month_prop["title"]` is subscripted without a type check, so a present
but non-title-typed month property raises `KeyError`
(`Except.error`); an absent property or an empty title list is skipped;
a title that fails `strptime` is skipped; otherwise the goal row is
kept. -/
def processGoalRecord (r : RawGoal) : Except Unit (Option MonthlyGoal) :=
  match r.monthProp with
  | none => Except.ok none
  | some (NProp.title []) => Except.ok none
  | some (NProp.title (s :: _)) =>
    match parseMonth s with
    | some ym => Except.ok (some ⟨ym.1, ym.2, goalMinutesOf r.goalProp⟩)
    | none => Except.ok none
  | some _ => Except.error ()

/-- `app.py` `process_goal_data`: the whole batch, propagating any
exception raised while processing a record. -/
def processGoalData : List RawGoal → Except Unit (List MonthlyGoal)
  | [] => Except.ok []
  | r :: rest => do
    let o ← processGoalRecord r
    let l ← processGoalData rest
    match o with
    | some x => Except.ok (x :: l)
    | none => Except.ok l

/-- Exception-free description of `extractActivity` (that path of the
code can never raise). -/
def extractActivityOk (r : RawActivity) : Option Obs :=
  match r.dateProp with
  | some (NProp.date (some dt)) => some ⟨dt, extractMinutes r.timeProp⟩
  | _ => none

/-- Exception-free description of `processGoalRecord`, valid whenever
the month property, if present, is title-typed. -/
def extractGoalOk (r : RawGoal) : Option MonthlyGoal :=
  match r.monthProp with
  | some (NProp.title (s :: _)) =>
    match parseMonth s with
    | some ym => some ⟨ym.1, ym.2, goalMinutesOf r.goalProp⟩
    | none => none
  | _ => none

/-- The month property, when present, is of title type. -/
def monthTagOk (r : RawGoal) : Prop :=
  match r.monthProp with
  | none => True
  | some (NProp.title _) => True
  | some _ => False

/-- `df.resample("D").sum()` bucketing: total minutes logged on a given
calendar date (same-day entries are summed; absent dates give 0). -/
def dailyMinutes (obs : List Obs) (dt : CalDate) : ℚ :=
  ((obs.filter (fun o => decide (o.Date = dt))).map Obs.LearningTime).sum

/-- Earliest observation date (the first index value after sorting). -/
def firstDate : List Obs → CalDate
  | [] => default
  | o :: rest => rest.foldl (fun a b => if dateLt b.Date a then b.Date else a) o.Date

/-- Latest observation date (the last index value after sorting). -/
def lastDate : List Obs → CalDate
  | [] => default
  | o :: rest => rest.foldl (fun a b => if dateLt a b.Date then b.Date else a) o.Date

/-- `n` consecutive calendar days starting at `dt`. -/
def dateList : CalDate → ℕ → List CalDate
  | _, 0 => []
  | dt, n + 1 => dt :: dateList (nextDay dt) n

/-- Number of rows `resample("D")` materializes: one per day from the
first to the last observed date inclusive. -/
def seriesSpan (obs : List Obs) : ℕ :=
  CalDate.ord (lastDate obs) + 1 - CalDate.ord (firstDate obs)

/-- The gap-filled daily index of the resampled frame. -/
def dailyDates (obs : List Obs) : List CalDate :=
  if obs.isEmpty then [] else dateList (firstDate obs) (seriesSpan obs)

/-- The gap-filled daily `LearningTime` column. -/
def dailyMins (obs : List Obs) : List ℚ :=
  (dailyDates obs).map (dailyMinutes obs)

/-- `Series.cumsum()` with running accumulator `a`. -/
def cumsum (a : ℚ) : List ℚ → List ℚ
  | [] => []
  | x :: xs => (a + x) :: cumsum (a + x) xs

/-- One step of the sliding window kept by
`Series.rolling(window=w, min_periods=1)`: append the new value and
drop the oldest once more than `w` values are held. -/
def rollWindow (w : ℕ) (win : List ℚ) (x : ℚ) : List ℚ :=
  (win ++ [x]).drop (win.length + 1 - w)

/-- `Series.rolling(window=w, min_periods=1).mean()`, carrying the
current window through the series. -/
def rollingMeanAux (w : ℕ) : List ℚ → List ℚ → List ℚ
  | _, [] => []
  | win, x :: xs =>
    ((rollWindow w win x).sum / ((rollWindow w win x).length : ℚ)) ::
      rollingMeanAux w (rollWindow w win x) xs

/-- The rolling mean of a series, starting from an empty window. -/
def rollingMean (w : ℕ) (xs : List ℚ) : List ℚ := rollingMeanAux w [] xs

/-- One row of the frame returned by `analyze_data`. -/
structure SeriesPoint where
  Date : CalDate
  LearningTime : ℚ
  Cumulative_Time : ℚ
  Moving_Avg_60d : ℚ
deriving DecidableEq, Repr

instance : Inhabited SeriesPoint := ⟨⟨default, 0, 0, 0⟩⟩

/-- `app.py` `analyze_data` (lines 189-213): sort, resample to daily
frequency summing same-day entries and filling gaps with 0, then add
the full-history cumulative sum and the 60-day moving average with
`min_periods=1`. -/
def analyzeData (obs : List Obs) : List SeriesPoint :=
  let dts := dailyDates obs
  let mins := dailyMins obs
  let cums := cumsum 0 mins
  let mas := rollingMean 60 mins
  (List.range dts.length).map
    (fun i => ⟨dts.getD i default, mins.getD i 0, cums.getD i 0, mas.getD i 0⟩)

/-- First day of the selected month (`current_month_start`). -/
def monthStart (yr mo : ℕ) : CalDate := ⟨yr, mo, 1⟩

/-- `app.py` lines 265-268: first day of the following month, with
December rolling into January of the next year. -/
def nextMonthStart (yr mo : ℕ) : CalDate :=
  if mo = 12 then ⟨yr + 1, 1, 1⟩ else ⟨yr, mo + 1, 1⟩

/-- The filter of `app.py` line 271: date within
`[month_start, next_month_start)`. -/
def inMonthRange (yr mo : ℕ) (dt : CalDate) : Prop :=
  dateLe (monthStart yr mo) dt ∧ dateLt dt (nextMonthStart yr mo)

instance (yr mo : ℕ) (dt : CalDate) : Decidable (inMonthRange yr mo dt) := by
  unfold inMonthRange; infer_instance

/-- `df_month` before the cumulative column: the daily series filtered
to the selected month. -/
def monthSlice (series : List SeriesPoint) (yr mo : ℕ) : List SeriesPoint :=
  series.filter (fun p => decide (inMonthRange yr mo p.Date))

/-- One row of `df_month` after `Monthly_Cumulative` is added; the
sliced rows keep all columns of the full series. -/
structure MonthPoint where
  Date : CalDate
  LearningTime : ℚ
  Cumulative_Time : ℚ
  Moving_Avg_60d : ℚ
  Monthly_Cumulative : ℚ
deriving DecidableEq, Repr

/-- `app.py` lines 271-275: slice the series to the month and recompute
the cumulative sum over the sliced rows only. -/
def monthRows (series : List SeriesPoint) (yr mo : ℕ) : List MonthPoint :=
  let sl := monthSlice series yr mo
  List.zipWith (fun p c => ⟨p.Date, p.LearningTime, p.Cumulative_Time, p.Moving_Avg_60d, c⟩)
    sl (cumsum 0 (sl.map SeriesPoint.LearningTime))

/-- `app.py` lines 282-288: the goal resolved for the selected month —
the `GoalTime` of the first goal row whose month equals the selection,
or 0 when there is none. -/
def goalLookup (goals : List MonthlyGoal) (yr mo : ℕ) : ℚ :=
  ((goals.find? (fun g => g.year == yr && g.month == mo)).map MonthlyGoal.GoalTime).getD 0

/-- `app.py` lines 291-308: the synthesized daily target curve — one
point per day of the month with a linear target, generated only when
the resolved goal is strictly positive. -/
def targetData (goal : ℚ) (yr mo : ℕ) : List (CalDate × ℚ) :=
  if 0 < goal then
    (List.range (daysInMonth yr mo)).map
      (fun k => (⟨yr, mo, k + 1⟩, goal * ((k + 1 : ℕ) : ℚ) / ((daysInMonth yr mo : ℕ) : ℚ)))
  else []

/-- `app.py` lines 314-323: the moving-average axis domain computed
from the values visible in the month slice (`0.2` is exact here, so ℚ
reproduces the float comparison `padding == 0`). -/
def maDomain (vals : List ℚ) : ℚ × ℚ :=
  match vals with
  | [] => (0, 300)
  | v :: vs =>
    let mn := vs.foldl min v
    let mx := vs.foldl max v
    let padding := (mx - mn) * (1 / 5)
    let pad := if padding = 0 then 20 else padding
    (max 0 (mn - pad), mx + pad)

/-- The moving-average display domain of the month view, fed from the
`Moving_Avg_60d` column of `df_month` (the `dropna()` is the identity
here because the embedded column is total). -/
def maDomainOf (obs : List Obs) (yr mo : ℕ) : ℚ × ℚ :=
  maDomain ((monthRows (analyzeData obs) yr mo).map MonthPoint.Moving_Avg_60d)

/-- One row of the full daily frame built inside
`generate_chart.process_data` (columns `date`, `minutes`,
`moving_avg_60d`). -/
structure ChartDaily where
  date : CalDate
  minutes : ℚ
  moving_avg_60d : ℚ
deriving DecidableEq, Repr

/-- One row of the frame returned by `generate_chart.process_data`. -/
structure ChartPoint where
  date : CalDate
  minutes : ℚ
  moving_avg_60d : ℚ
  monthly_cumulative : ℚ
deriving DecidableEq, Repr

/-- `generate_chart.py` `process_data` steps 1-3: the same sort,
daily resample with zero fill, and 60-day `min_periods=1` rolling mean
over the full history. -/
def chartDailySeries (obs : List Obs) : List ChartDaily :=
  let dts := dailyDates obs
  let mins := dailyMins obs
  let mas := rollingMean 60 mins
  (List.range dts.length).map
    (fun i => ⟨dts.getD i default, mins.getD i 0, mas.getD i 0⟩)

/-- `generate_chart.py` `process_data` steps 4-5: filter the daily
frame by equality of the `"%Y-%m"` rendering of the date with the
current month (equality of that string is equality of the (year,
month) pair), then take the cumulative sum of the filtered minutes. -/
def processData (obs : List Obs) (yr mo : ℕ) : List ChartPoint :=
  let f := (chartDailySeries obs).filter (fun r => r.date.y == yr && r.date.m == mo)
  List.zipWith (fun r c => ⟨r.date, r.minutes, r.moving_avg_60d, c⟩)
    f (cumsum 0 (f.map ChartDaily.minutes))

theorem dateLt_trans {a b c : CalDate} (h1 : dateLt a b) (h2 : dateLt b c) : dateLt a c := by
  unfold dateLt at *; omega

theorem dateLt_irrefl (a : CalDate) : ¬ dateLt a a := by
  unfold dateLt; omega

theorem dateLt_of_not_dateLe {a b : CalDate} (h : ¬ dateLe a b) : dateLt b a := by
  unfold dateLe at h; unfold dateLt; omega

theorem dateLe_of_dateLt {a b : CalDate} (h : dateLt a b) : dateLe a b := by
  unfold dateLt at h; unfold dateLe; omega

theorem getD_range_map {α : Type} (f : ℕ → α) (n i : ℕ) (dflt : α) (hi : i < n) :
    ((List.range n).map f).getD i dflt = f i := by
  have hlen : i < ((List.range n).map f).length := by simpa using hi
  rw [List.getD_eq_getElem _ _ hlen]
  simp

theorem range_map_getD {α : Type} (l : List α) (dflt : α) :
    (List.range l.length).map (fun i => l.getD i dflt) = l := by
  apply List.ext_getElem
  · simp
  · intro i h1 h2
    simp [List.getD, List.getElem?_eq_getElem, h2]

theorem cumsum_length (a : ℚ) (xs : List ℚ) : (cumsum a xs).length = xs.length := by
  induction xs generalizing a with
  | nil => rfl
  | cons x xs ih => simp [cumsum, ih]

theorem cumsum_getD (a : ℚ) (xs : List ℚ) (i : ℕ) (hi : i < xs.length) :
    (cumsum a xs).getD i 0 = a + (xs.take (i + 1)).sum := by
  induction xs generalizing a i with
  | nil => simp at hi
  | cons x xs ih =>
    cases i with
    | zero => simp [cumsum]
    | succ i =>
      simp only [cumsum, List.getD_cons_succ, List.take_succ_cons, List.sum_cons]
      rw [ih (a + x) i (by simpa using hi)]
      ring

/-- The last `w` elements of a list (the whole list when it is shorter
than `w`): the window contents of the rolling mean. -/
def windowOf (w : ℕ) (a : List ℚ) : List ℚ := a.drop (a.length - w)

theorem rollWindow_eq (w : ℕ) (win : List ℚ) (x : ℚ) :
    rollWindow w win x = windowOf w (win ++ [x]) := by
  unfold rollWindow windowOf
  simp

theorem windowOf_length_le (w : ℕ) (a : List ℚ) : (windowOf w a).length ≤ w := by
  unfold windowOf
  simp only [List.length_drop]
  omega

theorem windowOf_append (w : ℕ) (b t : List ℚ) :
    windowOf w (windowOf w b ++ t) = windowOf w (b ++ t) := by
  unfold windowOf
  rw [← List.drop_append_of_le_length (show b.length - w ≤ b.length by omega)]
  rw [List.drop_drop]
  congr 1
  simp only [List.length_drop, List.length_append]
  omega

theorem rollingMeanAux_length (w : ℕ) (xs : List ℚ) :
    ∀ win, (rollingMeanAux w win xs).length = xs.length := by
  induction xs with
  | nil => intro win; rfl
  | cons x xs ih => intro win; simp [rollingMeanAux, ih]

theorem rollingMeanAux_getD (w : ℕ) (xs : List ℚ) :
    ∀ (win : List ℚ) (i : ℕ), i < xs.length →
      (rollingMeanAux w win xs).getD i 0 =
        (windowOf w (win ++ xs.take (i + 1))).sum /
          ((windowOf w (win ++ xs.take (i + 1))).length : ℚ) := by
  induction xs with
  | nil => intro win i hi; simp at hi
  | cons x xs ih =>
    intro win i hi
    cases i with
    | zero =>
      simp only [rollingMeanAux, List.getD_cons_zero, List.take_succ_cons, List.take_zero]
      rw [rollWindow_eq]
    | succ i =>
      simp only [rollingMeanAux, List.getD_cons_succ]
      rw [ih (rollWindow w win x) i (by simpa using hi)]
      rw [rollWindow_eq, windowOf_append]
      simp only [List.append_assoc, List.singleton_append, List.take_succ_cons]

theorem rollingMean_getD (w : ℕ) (xs : List ℚ) (i : ℕ) (hi : i < xs.length) :
    (rollingMean w xs).getD i 0 =
      (windowOf w (xs.take (i + 1))).sum / ((windowOf w (xs.take (i + 1))).length : ℚ) := by
  unfold rollingMean
  rw [rollingMeanAux_getD w xs [] i hi]
  simp

theorem rollingMean_length (w : ℕ) (xs : List ℚ) : (rollingMean w xs).length = xs.length := by
  unfold rollingMean
  exact rollingMeanAux_length w xs []

theorem dateLt_dateLe_trans {a b c : CalDate} (h1 : dateLt a b) (h2 : dateLe b c) : dateLt a c := by
  unfold dateLt dateLe at *; omega

theorem dateLe_refl (a : CalDate) : dateLe a a := by
  unfold dateLe; omega

theorem dateLe_trans {a b c : CalDate} (h1 : dateLe a b) (h2 : dateLe b c) : dateLe a c := by
  unfold dateLe at *; omega

theorem getD_mem {α : Type} (l : List α) (i : ℕ) (dflt : α) (h : i < l.length) :
    l.getD i dflt ∈ l := by
  rw [List.getD_eq_getElem _ _ h]
  exact List.getElem_mem h

theorem daysInMonth_pos (yr mo : ℕ) : 1 ≤ daysInMonth yr mo := by
  unfold daysInMonth
  split
  · split <;> omega
  · split <;> omega

theorem nextDay_lt (x : CalDate) : dateLt x (nextDay x) := by
  unfold nextDay
  split
  · simp [dateLt]
  · split
    · simp [dateLt]
    · simp [dateLt]

theorem nextDay_valid {x : CalDate} (h : x.Valid) : (nextDay x).Valid := by
  obtain ⟨ha, hb, hc, hd⟩ := h
  unfold nextDay
  split
  · next hlt => exact ⟨ha, hb, Nat.succ_le_succ (Nat.zero_le _), hlt⟩
  · split
    · next hm => exact ⟨Nat.succ_le_succ (Nat.zero_le _), hm, le_refl 1, daysInMonth_pos _ _⟩
    · exact ⟨le_refl 1, by norm_num, le_refl 1, daysInMonth_pos _ _⟩

theorem dateList_length (dt : CalDate) (n : ℕ) : (dateList dt n).length = n := by
  induction n generalizing dt with
  | zero => rfl
  | succ n ih => simp [dateList, ih]

theorem dateList_mem_le (dt : CalDate) (n : ℕ) : ∀ e ∈ dateList dt n, dateLe dt e := by
  induction n generalizing dt with
  | zero => intro e he; simp [dateList] at he
  | succ n ih =>
    intro e he
    simp only [dateList, List.mem_cons] at he
    rcases he with rfl | he
    · exact dateLe_refl e
    · exact dateLe_trans (dateLe_of_dateLt (nextDay_lt dt)) (ih (nextDay dt) e he)

theorem dateList_mem_valid {dt : CalDate} {n : ℕ} (h : dt.Valid) :
    ∀ e ∈ dateList dt n, e.Valid := by
  induction n generalizing dt with
  | zero => intro e he; simp [dateList] at he
  | succ n ih =>
    intro e he
    simp only [dateList, List.mem_cons] at he
    rcases he with rfl | he
    · exact h
    · exact ih (nextDay_valid h) e he

theorem dateList_getD_lt (dt : CalDate) (n : ℕ) :
    ∀ i j, i < j → j < n →
      dateLt ((dateList dt n).getD i default) ((dateList dt n).getD j default) := by
  induction n generalizing dt with
  | zero => intro i j hij hj; omega
  | succ n ih =>
    intro i j hij hj
    cases j with
    | zero => omega
    | succ j =>
      cases i with
      | zero =>
        simp only [dateList, List.getD_cons_zero, List.getD_cons_succ]
        have hmem : (dateList (nextDay dt) n).getD j default ∈ dateList (nextDay dt) n := by
          apply getD_mem
          rw [dateList_length]
          omega
        exact dateLt_dateLe_trans (nextDay_lt dt) (dateList_mem_le (nextDay dt) n _ hmem)
      | succ i =>
        simp only [dateList, List.getD_cons_succ]
        exact ih (nextDay dt) i j (by omega) (by omega)

theorem foldl_first_valid (l : List Obs) :
    ∀ a : CalDate, a.Valid → (∀ o ∈ l, o.Date.Valid) →
      (l.foldl (fun a b => if dateLt b.Date a then b.Date else a) a).Valid := by
  induction l with
  | nil => intro a ha _; exact ha
  | cons o rest ih =>
    intro a ha hl
    simp only [List.foldl_cons]
    apply ih
    · by_cases hc : dateLt o.Date a
      · simpa [hc] using hl o (by simp)
      · simpa [hc] using ha
    · intro x hx; exact hl x (by simp [hx])

theorem firstDate_valid {obs : List Obs} (h : ∀ o ∈ obs, o.Date.Valid)
    (hne : ¬ obs.isEmpty) : (firstDate obs).Valid := by
  cases obs with
  | nil => simp at hne
  | cons o rest =>
    unfold firstDate
    apply foldl_first_valid
    · exact h o (by simp)
    · intro x hx; exact h x (by simp [hx])

theorem dailyDates_valid {obs : List Obs} (h : ∀ o ∈ obs, o.Date.Valid) :
    ∀ e ∈ dailyDates obs, e.Valid := by
  unfold dailyDates
  split
  · intro e he; simp at he
  · next hne => exact dateList_mem_valid (firstDate_valid h hne)

theorem inMonthRange_iff {dt : CalDate} (hd : dt.Valid) (yr mo : ℕ)
    (hm1 : 1 ≤ mo) (hm2 : mo ≤ 12) :
    inMonthRange yr mo dt ↔ (dt.y = yr ∧ dt.m = mo) := by
  obtain ⟨h1, h2, h3, h4⟩ := hd
  unfold inMonthRange monthStart nextMonthStart dateLe dateLt
  by_cases h12 : mo = 12
  · subst h12
    simp only [if_pos rfl]
    simp
    omega
  · simp only [if_neg h12]
    simp
    omega

theorem dailyMins_length (obs : List Obs) : (dailyMins obs).length = (dailyDates obs).length := by
  simp [dailyMins]

theorem analyzeData_length (obs : List Obs) :
    (analyzeData obs).length = (dailyDates obs).length := by
  simp [analyzeData]

theorem analyzeData_getD (obs : List Obs) (i : ℕ) (hi : i < (dailyDates obs).length) :
    (analyzeData obs).getD i default =
      ⟨(dailyDates obs).getD i default, (dailyMins obs).getD i 0,
       (cumsum 0 (dailyMins obs)).getD i 0, (rollingMean 60 (dailyMins obs)).getD i 0⟩ := by
  unfold analyzeData
  exact getD_range_map _ _ i default hi

theorem analyzeData_map_Date (obs : List Obs) :
    (analyzeData obs).map SeriesPoint.Date = dailyDates obs := by
  unfold analyzeData
  rw [List.map_map]
  exact range_map_getD (dailyDates obs) default

theorem analyzeData_map_LearningTime (obs : List Obs) :
    (analyzeData obs).map SeriesPoint.LearningTime = dailyMins obs := by
  unfold analyzeData
  rw [List.map_map, ← dailyMins_length obs]
  exact range_map_getD (dailyMins obs) 0

theorem analyzeData_map_Cumulative (obs : List Obs) :
    (analyzeData obs).map SeriesPoint.Cumulative_Time = cumsum 0 (dailyMins obs) := by
  unfold analyzeData
  rw [List.map_map]
  have h : (dailyDates obs).length = (cumsum 0 (dailyMins obs)).length := by
    rw [cumsum_length, dailyMins_length]
  rw [h]
  exact range_map_getD (cumsum 0 (dailyMins obs)) 0

theorem analyzeData_map_MovingAvg (obs : List Obs) :
    (analyzeData obs).map SeriesPoint.Moving_Avg_60d = rollingMean 60 (dailyMins obs) := by
  unfold analyzeData
  rw [List.map_map]
  have h : (dailyDates obs).length = (rollingMean 60 (dailyMins obs)).length := by
    rw [rollingMean_length, dailyMins_length]
  rw [h]
  exact range_map_getD (rollingMean 60 (dailyMins obs)) 0

theorem analyzeData_pairwise (obs : List Obs) :
    (analyzeData obs).Pairwise (fun p q => dateLt p.Date q.Date) := by
  have hd : (dailyDates obs).Pairwise dateLt := by
    unfold dailyDates
    split
    · exact List.Pairwise.nil
    · rw [List.pairwise_iff_getElem]
      intro i j hi hj hij
      have hlen : (dateList (firstDate obs) (seriesSpan obs)).length = seriesSpan obs :=
        dateList_length _ _
      have h := dateList_getD_lt (firstDate obs) (seriesSpan obs) i j hij (by omega)
      rwa [List.getD_eq_getElem _ _ (by omega), List.getD_eq_getElem _ _ (by omega)] at h
  rw [← analyzeData_map_Date obs] at hd
  exact (List.pairwise_map).mp hd

instance : Inhabited MonthPoint := ⟨⟨default, 0, 0, 0, 0⟩⟩

theorem not_dateLt_of_dateLe {a b : CalDate} (h : dateLe a b) : ¬ dateLt b a := by
  unfold dateLe at h; unfold dateLt; omega

theorem dateLe_of_not_dateLt {a b : CalDate} (h : ¬ dateLt a b) : dateLe b a := by
  unfold dateLt at h; unfold dateLe; omega

/-- The running-total column is the cumulative sum of the minutes
column, started from accumulator `a`. -/
def CumConsistent : ℚ → List SeriesPoint → Prop
  | _, [] => True
  | a, p :: rest =>
    p.Cumulative_Time = a + p.LearningTime ∧ CumConsistent (a + p.LearningTime) rest

theorem cumConsistent_of_map (l : List SeriesPoint) :
    ∀ a, l.map SeriesPoint.Cumulative_Time = cumsum a (l.map SeriesPoint.LearningTime) →
      CumConsistent a l := by
  induction l with
  | nil => intro a _; trivial
  | cons p rest ih =>
    intro a h
    simp only [List.map_cons, cumsum, List.cons.injEq] at h
    exact ⟨h.1, ih _ h.2⟩

theorem analyzeData_cumConsistent (obs : List Obs) : CumConsistent 0 (analyzeData obs) := by
  apply cumConsistent_of_map
  rw [analyzeData_map_Cumulative, analyzeData_map_LearningTime]

theorem cumsum_getD_shift (c : ℚ) (xs : List ℚ) (j : ℕ) (hj : j < xs.length) :
    (cumsum c xs).getD j 0 = c + (cumsum 0 xs).getD j 0 := by
  rw [cumsum_getD c xs j hj, cumsum_getD 0 xs j hj]
  ring

theorem zipWith_getD {α β γ : Type} [Inhabited γ] (f : α → β → γ) (as : List α)
    (bs : List β) (da : α) (db : β) (j : ℕ) (h1 : j < as.length) (h2 : j < bs.length) :
    (List.zipWith f as bs).getD j default = f (as.getD j da) (bs.getD j db) := by
  have hl : j < (List.zipWith f as bs).length := by
    rw [List.length_zipWith]; omega
  rw [List.getD_eq_getElem _ _ hl, List.getD_eq_getElem _ _ h1, List.getD_eq_getElem _ _ h2]
  exact List.getElem_zipWith

/-- Sum of the minutes of the series points strictly before the start
of the selected month. -/
def preMonthSum (l : List SeriesPoint) (yr mo : ℕ) : ℚ :=
  ((l.filter (fun p => decide (dateLt p.Date (monthStart yr mo)))).map
    SeriesPoint.LearningTime).sum

theorem monthCum_split (yr mo : ℕ) :
    ∀ (l : List SeriesPoint) (a : ℚ),
      l.Pairwise (fun p q => dateLt p.Date q.Date) →
      CumConsistent a l →
      ∀ j, j < (monthSlice l yr mo).length →
        ((monthSlice l yr mo).getD j default).Cumulative_Time =
          a + preMonthSum l yr mo +
            (cumsum 0 ((monthSlice l yr mo).map SeriesPoint.LearningTime)).getD j 0 := by
  intro l
  induction l with
  | nil => intro a _ _ j hj; simp [monthSlice] at hj
  | cons p rest ih =>
    intro a hpw hcc j hj
    obtain ⟨hhead, hpw2⟩ := List.pairwise_cons.mp hpw
    obtain ⟨hcum, hcc2⟩ := hcc
    by_cases him : inMonthRange yr mo p.Date
    · have hslice : monthSlice (p :: rest) yr mo = p :: monthSlice rest yr mo := by
        simp [monthSlice, List.filter_cons, him]
      have hpre0 : preMonthSum rest yr mo = 0 := by
        unfold preMonthSum
        have : rest.filter (fun q => decide (dateLt q.Date (monthStart yr mo))) = [] := by
          apply List.filter_eq_nil_iff.mpr
          intro q hq
          simp only [decide_eq_true_eq]
          exact not_dateLt_of_dateLe
            (dateLe_trans him.1 (dateLe_of_dateLt (hhead q hq)))
        rw [this]
        rfl
      have hpre : preMonthSum (p :: rest) yr mo = 0 := by
        unfold preMonthSum
        rw [List.filter_cons_of_neg (by simpa using not_dateLt_of_dateLe him.1)]
        exact hpre0
      rw [hslice] at hj ⊢
      cases j with
      | zero =>
        simp only [List.getD_cons_zero, List.map_cons, cumsum, hpre]
        rw [hcum]
        ring
      | succ j =>
        simp only [List.getD_cons_succ, List.map_cons, cumsum]
        have hj2 : j < (monthSlice rest yr mo).length := by
          simpa using hj
        have hlen : j < ((monthSlice rest yr mo).map SeriesPoint.LearningTime).length := by
          simpa using hj2
        rw [ih (a + p.LearningTime) hpw2 hcc2 j hj2, hpre0, hpre,
          cumsum_getD_shift (0 + p.LearningTime) _ j hlen]
        ring
    · have hslice : monthSlice (p :: rest) yr mo = monthSlice rest yr mo := by
        simp [monthSlice, List.filter_cons, him]
      by_cases hbefore : dateLt p.Date (monthStart yr mo)
      · have hpre : preMonthSum (p :: rest) yr mo =
            p.LearningTime + preMonthSum rest yr mo := by
          unfold preMonthSum
          rw [List.filter_cons_of_pos (by simpa using hbefore)]
          simp
        rw [hslice] at hj ⊢
        rw [ih (a + p.LearningTime) hpw2 hcc2 j hj, hpre]
        ring
      · exfalso
        have hafter : dateLe (nextMonthStart yr mo) p.Date := by
          have hge : dateLe (monthStart yr mo) p.Date := dateLe_of_not_dateLt hbefore
          unfold inMonthRange at him
          push_neg at him
          exact dateLe_of_not_dateLt (him hge)
        have hempty : monthSlice rest yr mo = [] := by
          unfold monthSlice
          apply List.filter_eq_nil_iff.mpr
          intro q hq
          simp only [decide_eq_true_eq]
          intro hin
          exact not_dateLt_of_dateLe
            (dateLe_trans hafter (dateLe_of_dateLt (hhead q hq))) hin.2
        rw [hslice, hempty] at hj
        simp at hj

theorem extractActivity_never_raises (r : RawActivity) :
    extractActivity r = Except.ok (extractActivityOk r) := by
  rcases r with ⟨dp, tp⟩
  cases dp with
  | none => rfl
  | some p =>
    cases p with
    | date o => cases o <;> rfl
    | number o => rfl
    | title ts => rfl
    | other => rfl

theorem processRawData_never_raises (rs : List RawActivity) :
    processRawData rs = Except.ok (rs.filterMap extractActivityOk) := by
  induction rs with
  | nil => rfl
  | cons r rest ih =>
    cases hr : extractActivityOk r <;>
      simp [processRawData, extractActivity_never_raises, ih, hr, List.filterMap_cons,
        Bind.bind, Except.bind]

theorem processGoalRecord_ok {r : RawGoal} (h : monthTagOk r) :
    processGoalRecord r = Except.ok (extractGoalOk r) := by
  rcases r with ⟨mp, gp⟩
  cases mp with
  | none => rfl
  | some p =>
    cases p with
    | title ts =>
      cases ts with
      | nil => rfl
      | cons s rest =>
        cases hpm : parseMonth s <;> simp [processGoalRecord, extractGoalOk, hpm]
    | date o => exact absurd h (by simp [monthTagOk])
    | number o => exact absurd h (by simp [monthTagOk])
    | other => exact absurd h (by simp [monthTagOk])

theorem processGoalData_tag_ok (rs : List RawGoal) (h : ∀ r ∈ rs, monthTagOk r) :
    processGoalData rs = Except.ok (rs.filterMap extractGoalOk) := by
  induction rs with
  | nil => rfl
  | cons r rest ih =>
    have h1 := processGoalRecord_ok (h r (by simp))
    have h2 := ih (fun x hx => h x (by simp [hx]))
    cases hg : extractGoalOk r <;>
      simp [processGoalData, h1, h2, hg, List.filterMap_cons, Bind.bind, Except.bind]

/-- Claim C5 (corrected): activity-record normalization never raises
and never aborts the batch, and goal-record normalization never raises
provided every present month-title field is title-typed; in both cases
malformed records are dropped or defaulted per field while the rest of
the batch is still normalized.  (The unamended claim fails: a
month-title field present but of a non-title type raises and aborts the
goal batch, see the counterexample.) -/
theorem C5_normalization_no_abort_amended :
    (∀ rs : List RawActivity, processRawData rs = Except.ok (rs.filterMap extractActivityOk)) ∧
    (∀ rs : List RawGoal, (∀ r ∈ rs, monthTagOk r) →
      processGoalData rs = Except.ok (rs.filterMap extractGoalOk)) :=
  ⟨processRawData_never_raises, processGoalData_tag_ok⟩

/-- Claim C5, counterexample: a goal record whose month-title field is
present but number-typed makes `process_goal_data` raise `KeyError`,
aborting the whole batch — so normalization does not tolerate every
malformed individual record. -/
theorem C5_title_type_aborts_counterexample :
    processGoalData [⟨some (NProp.number (some 5)), none⟩] = Except.error () := rfl

/-- Claim C5, witness: a mixed goal batch whose month fields are
title-typed (one parseable, one absent) is normalized without raising. -/
theorem C5_normalization_no_abort_amended_witness :
    processGoalData
      [⟨some (NProp.title ["2026-Jan"]), some (NProp.number (some 10))⟩, ⟨none, none⟩] =
      Except.ok [⟨2026, 1, 600⟩] := by
  rw [C5_normalization_no_abort_amended.2 _ (by simp [monthTagOk])]
  with_unfolding_all rfl

/-- Claim C6: an activity record with an absent, wrongly typed, or
empty date field yields no observation; with a good date but an absent,
wrongly typed, or null minutes field it is kept with 0 minutes; and
with both fields good it is kept with its minutes value unchanged. -/
theorem C6_activity_field_rules (dp tp : Option NProp) :
    ((dp = none ∨ (∃ p, dp = some p ∧ ∀ o, p ≠ NProp.date o) ∨ dp = some (NProp.date none)) →
      extractActivity ⟨dp, tp⟩ = Except.ok none) ∧
    (∀ dt, dp = some (NProp.date (some dt)) →
      (tp = none ∨ (∃ q, tp = some q ∧ ∀ o, q ≠ NProp.number o) ∨
        tp = some (NProp.number none)) →
      extractActivity ⟨dp, tp⟩ = Except.ok (some ⟨dt, 0⟩)) ∧
    (∀ dt n, dp = some (NProp.date (some dt)) → tp = some (NProp.number (some n)) →
      extractActivity ⟨dp, tp⟩ = Except.ok (some ⟨dt, n⟩)) := by
  refine ⟨?_, ?_, ?_⟩
  · rintro (rfl | ⟨p, rfl, hp⟩ | rfl)
    · rfl
    · cases p with
      | date o => exact absurd rfl (hp o)
      | number o => rfl
      | title ts => rfl
      | other => rfl
    · rfl
  · rintro dt rfl (rfl | ⟨q, rfl, hq⟩ | rfl)
    · rfl
    · cases q with
      | number o => exact absurd rfl (hq o)
      | date o => rfl
      | title ts => rfl
      | other => rfl
    · rfl
  · rintro dt n rfl rfl
    rfl

/-- Claim C6, witness: the three per-field rules evaluated at concrete
records. -/
theorem C6_activity_field_rules_witness :
    extractActivity ⟨some NProp.other, some (NProp.number (some 30))⟩ = Except.ok none ∧
    extractActivity ⟨some (NProp.date (some ⟨2026, 1, 1⟩)), none⟩ =
      Except.ok (some ⟨⟨2026, 1, 1⟩, 0⟩) ∧
    extractActivity ⟨some (NProp.date (some ⟨2026, 1, 1⟩)), some (NProp.number (some 30))⟩ =
      Except.ok (some ⟨⟨2026, 1, 1⟩, 30⟩) :=
  ⟨(C6_activity_field_rules _ _).1 (Or.inr (Or.inl ⟨NProp.other, rfl, fun o => by simp⟩)),
   (C6_activity_field_rules _ _).2.1 ⟨2026, 1, 1⟩ rfl (Or.inl rfl),
   (C6_activity_field_rules _ _).2.2 ⟨2026, 1, 1⟩ 30 rfl rfl⟩

set_option maxRecDepth 100000 in
/-- Claim C7: a goal record with an absent or empty month title, or one
that fails the `"%Y-%b"` parse, is dropped silently; a kept record's
`goal_minutes` is its hours value times 60, defaulting to 0 when the
hours field is absent, wrongly typed, or null; and the scenario record
`{month: "2026-Jan", goal_hours: 10}` yields the goal (2026, 1, 600). -/
theorem C7_goal_record_rules (mp gp : Option NProp) :
    ((mp = none ∨ mp = some (NProp.title [])) →
      processGoalRecord ⟨mp, gp⟩ = Except.ok none) ∧
    (∀ s ts, mp = some (NProp.title (s :: ts)) → parseMonth s = none →
      processGoalRecord ⟨mp, gp⟩ = Except.ok none) ∧
    (∀ s ts yr mo, mp = some (NProp.title (s :: ts)) → parseMonth s = some (yr, mo) →
      processGoalRecord ⟨mp, gp⟩ = Except.ok (some ⟨yr, mo, goalMinutesOf gp⟩)) ∧
    goalMinutesOf none = 0 ∧
    (∀ q, (∀ o, q ≠ NProp.number o) → goalMinutesOf (some q) = 0) ∧
    goalMinutesOf (some (NProp.number none)) = 0 ∧
    (∀ hrs, goalMinutesOf (some (NProp.number (some hrs))) = hrs * 60) ∧
    processGoalRecord ⟨some (NProp.title ["2026-Jan"]), some (NProp.number (some 10))⟩ =
      Except.ok (some ⟨2026, 1, 600⟩) := by
  refine ⟨?_, ?_, ?_, rfl, ?_, rfl, fun hrs => rfl, ?_⟩
  · rintro (rfl | rfl) <;> rfl
  · rintro s ts rfl hpm
    simp [processGoalRecord, hpm]
  · rintro s ts yr mo rfl hpm
    simp [processGoalRecord, hpm]
  · intro q hq
    cases q with
    | number o => exact absurd rfl (hq o)
    | date o => rfl
    | title ts => rfl
    | other => rfl
  · with_unfolding_all rfl

/-- Claim C7, witness: the drop and default rules evaluated at concrete
goal records. -/
theorem C7_goal_record_rules_witness :
    processGoalRecord ⟨none, some (NProp.number (some 3))⟩ = Except.ok none ∧
    processGoalRecord ⟨some (NProp.title ["garbage"]), none⟩ = Except.ok none ∧
    processGoalRecord ⟨some (NProp.title ["2026-Feb"]), none⟩ =
      Except.ok (some ⟨2026, 2, goalMinutesOf none⟩) :=
  ⟨(C7_goal_record_rules none _).1 (Or.inl rfl),
   (C7_goal_record_rules _ _).2.1 "garbage" [] rfl (by decide),
   (C7_goal_record_rules _ _).2.2.1 "2026-Feb" [] 2026 2 rfl (by decide)⟩

theorem foldl_min_le_init (vs : List ℚ) : ∀ v : ℚ, vs.foldl min v ≤ v := by
  induction vs with
  | nil => intro v; exact le_refl v
  | cons x xs ih =>
    intro v
    exact le_trans (ih (min v x)) (min_le_left v x)

theorem foldl_max_init_le (vs : List ℚ) : ∀ v : ℚ, v ≤ vs.foldl max v := by
  induction vs with
  | nil => intro v; exact le_refl v
  | cons x xs ih =>
    intro v
    exact le_trans (le_max_left v x) (ih (max v x))

theorem foldl_min_mem (vs : List ℚ) : ∀ v : ℚ, vs.foldl min v ∈ v :: vs := by
  induction vs with
  | nil => intro v; simp
  | cons x xs ih =>
    intro v
    rcases List.mem_cons.mp (ih (min v x)) with h | h
    · rw [List.foldl_cons, h]
      rcases min_choice v x with hc | hc <;> simp [hc]
    · rw [List.foldl_cons]
      exact List.mem_cons_of_mem _ (List.mem_cons_of_mem _ h)

theorem foldl_max_mem (vs : List ℚ) : ∀ v : ℚ, vs.foldl max v ∈ v :: vs := by
  induction vs with
  | nil => intro v; simp
  | cons x xs ih =>
    intro v
    rcases List.mem_cons.mp (ih (max v x)) with h | h
    · rw [List.foldl_cons, h]
      rcases max_choice v x with hc | hc <;> simp [hc]
    · rw [List.foldl_cons]
      exact List.mem_cons_of_mem _ (List.mem_cons_of_mem _ h)

theorem foldl_min_le (vs : List ℚ) : ∀ v x : ℚ, x ∈ v :: vs → vs.foldl min v ≤ x := by
  induction vs with
  | nil =>
    intro v x hx
    rw [List.mem_singleton] at hx
    subst hx
    simp
  | cons y ys ih =>
    intro v x hx
    rcases List.mem_cons.mp hx with rfl | hx2
    · exact le_trans (foldl_min_le_init (y :: ys) x) (le_refl x)
    · rcases List.mem_cons.mp hx2 with rfl | hx3
      · rw [List.foldl_cons]
        exact le_trans (foldl_min_le_init ys (min v x)) (min_le_right v x)
      · rw [List.foldl_cons]
        exact ih (min v y) x (List.mem_cons_of_mem _ hx3)

theorem foldl_le_max (vs : List ℚ) : ∀ v x : ℚ, x ∈ v :: vs → x ≤ vs.foldl max v := by
  induction vs with
  | nil =>
    intro v x hx
    rw [List.mem_singleton] at hx
    subst hx
    simp
  | cons y ys ih =>
    intro v x hx
    rcases List.mem_cons.mp hx with rfl | hx2
    · exact foldl_max_init_le (y :: ys) x
    · rcases List.mem_cons.mp hx2 with rfl | hx3
      · rw [List.foldl_cons]
        exact le_trans (le_max_right v x) (foldl_max_init_le ys (max v x))
      · rw [List.foldl_cons]
        exact ih (max v y) x (List.mem_cons_of_mem _ hx3)

set_option maxRecDepth 100000 in
/-- Claim C8: when the month slice shows no moving-average values the
display domain is the fallback (0, 300); otherwise, with `mn`/`mx` the
minimum and maximum visible values and padding `(mx - mn) * 0.2`
(replaced by the fixed buffer 20 when it is exactly 0), the domain is
`(max 0 (mn - padding), mx + padding)`; and a month whose visible
values all equal 5.0 gets domain (0, 25). -/
theorem C8_ma_domain_spec (obs : List Obs) (yr mo : ℕ) :
    ((monthRows (analyzeData obs) yr mo).map MonthPoint.Moving_Avg_60d = [] →
      maDomainOf obs yr mo = (0, 300)) ∧
    (∀ v vs, (monthRows (analyzeData obs) yr mo).map MonthPoint.Moving_Avg_60d = v :: vs →
      ∃ mn mx, mn ∈ v :: vs ∧ mx ∈ v :: vs ∧ (∀ x ∈ v :: vs, mn ≤ x ∧ x ≤ mx) ∧
        maDomainOf obs yr mo =
          (max 0 (mn - (if (mx - mn) * (1 / 5) = 0 then 20 else (mx - mn) * (1 / 5))),
           mx + (if (mx - mn) * (1 / 5) = 0 then 20 else (mx - mn) * (1 / 5)))) ∧
    maDomainOf [⟨⟨2026, 1, 1⟩, 5⟩, ⟨⟨2026, 1, 2⟩, 5⟩, ⟨⟨2026, 1, 3⟩, 5⟩] 2026 1 = (0, 25) := by
  refine ⟨?_, ?_, ?_⟩
  · intro h
    unfold maDomainOf
    rw [h]
    rfl
  · intro v vs h
    refine ⟨vs.foldl min v, vs.foldl max v, foldl_min_mem vs v, foldl_max_mem vs v,
      fun x hx => ⟨foldl_min_le vs v x hx, foldl_le_max vs v x hx⟩, ?_⟩
    unfold maDomainOf
    rw [h]
    rfl
  · with_unfolding_all rfl

set_option maxRecDepth 100000 in
/-- Claim C8, witness: the fallback branch on an empty history and the
padded branch on a January slice with visible values -10 and 10. -/
theorem C8_ma_domain_spec_witness :
    maDomainOf [] 2026 1 = (0, 300) ∧
    (∃ mn mx, mn ∈ [(-10 : ℚ), 10] ∧ mx ∈ [(-10 : ℚ), 10] ∧
      (∀ x ∈ [(-10 : ℚ), 10], mn ≤ x ∧ x ≤ mx) ∧
      maDomainOf [⟨⟨2026, 1, 1⟩, -10⟩, ⟨⟨2026, 1, 2⟩, 30⟩] 2026 1 =
        (max 0 (mn - (if (mx - mn) * (1 / 5) = 0 then 20 else (mx - mn) * (1 / 5))),
         mx + (if (mx - mn) * (1 / 5) = 0 then 20 else (mx - mn) * (1 / 5)))) :=
  ⟨(C8_ma_domain_spec [] 2026 1).1 (by with_unfolding_all rfl),
   (C8_ma_domain_spec [⟨⟨2026, 1, 1⟩, -10⟩, ⟨⟨2026, 1, 2⟩, 30⟩] 2026 1).2.1 (-10) [10]
     (by with_unfolding_all rfl)⟩

set_option maxRecDepth 100000 in
/-- Claim C9: contrary to the claim (and to the code's own comment),
the floor at 0 is applied even when a visible moving-average value is
negative: with visible values -10 and 10 the padding is 4, the claim
expects a lower bound of -14, but the code produces 0. -/
theorem C9_floor_applied_despite_negatives :
    maDomainOf [⟨⟨2026, 1, 1⟩, -10⟩, ⟨⟨2026, 1, 2⟩, 30⟩] 2026 1 = (0, 14) ∧
    ((-10 : ℚ) - ((10 - (-10)) * (1 / 5)) = -14) ∧ (0 : ℚ) ≠ -14 := by
  refine ⟨by with_unfolding_all rfl, by norm_num, by norm_num⟩

theorem targetData_spec (g : ℚ) (yr mo : ℕ) :
    (targetData g yr mo ≠ [] ↔ 0 < g) ∧
    (0 < g →
      (targetData g yr mo).length = daysInMonth yr mo ∧
      (∀ k, k < daysInMonth yr mo →
        (targetData g yr mo).getD k (default, 0) =
          (⟨yr, mo, k + 1⟩, g * ((k + 1 : ℕ) : ℚ) / ((daysInMonth yr mo : ℕ) : ℚ))) ∧
      (∀ j k, j < k → k < daysInMonth yr mo →
        ((targetData g yr mo).getD j (default, 0)).2 <
          ((targetData g yr mo).getD k (default, 0)).2) ∧
      ((targetData g yr mo).getD (daysInMonth yr mo - 1) (default, 0)).2 = g) ∧
    (g ≤ 0 → targetData g yr mo = []) := by
  have hpos := daysInMonth_pos yr mo
  have hdim : (0 : ℚ) < ((daysInMonth yr mo : ℕ) : ℚ) := by exact_mod_cast hpos
  refine ⟨⟨?_, ?_⟩, ?_, ?_⟩
  · intro hne
    by_contra hg
    push_neg at hg
    unfold targetData at hne
    rw [if_neg (not_lt.mpr hg)] at hne
    exact hne rfl
  · intro hg
    unfold targetData
    rw [if_pos hg]
    simp [List.map_eq_nil_iff, List.range_eq_nil]
    omega
  · intro hg
    unfold targetData
    rw [if_pos hg]
    refine ⟨by simp, ?_, ?_, ?_⟩
    · intro k hk
      rw [getD_range_map _ _ k _ hk]
    · intro j k hjk hk
      rw [getD_range_map _ _ j _ (lt_trans hjk hk), getD_range_map _ _ k _ hk]
      have h1 : ((j + 1 : ℕ) : ℚ) < ((k + 1 : ℕ) : ℚ) := by
        exact_mod_cast Nat.succ_lt_succ hjk
      have h2 : g * ((j + 1 : ℕ) : ℚ) < g * ((k + 1 : ℕ) : ℚ) :=
        mul_lt_mul_of_pos_left h1 hg
      exact (div_lt_div_iff_of_pos_right hdim).mpr h2
    · rw [getD_range_map _ _ _ _ (by omega)]
      have hsub : daysInMonth yr mo - 1 + 1 = daysInMonth yr mo := by omega
      show g * ((daysInMonth yr mo - 1 + 1 : ℕ) : ℚ) / ((daysInMonth yr mo : ℕ) : ℚ) = g
      rw [hsub, mul_div_assoc, div_self (ne_of_gt hdim), mul_one]
  · intro hg
    unfold targetData
    rw [if_neg (not_lt.mpr hg)]

/-- Claim C2: the month's target sequence is non-empty exactly when the
resolved goal is strictly positive; in that case there is one point per
calendar day `d` of the (leap-year-correct) month with
`target_cumulative(d) = goal * (d / days_in_month)`, so the targets are
strictly increasing in `d` and the last point equals the full goal; a
zero or absent goal yields an empty target sequence. -/
theorem C2_month_targets (goals : List MonthlyGoal) (yr mo : ℕ) :
    (targetData (goalLookup goals yr mo) yr mo ≠ [] ↔ 0 < goalLookup goals yr mo) ∧
    (0 < goalLookup goals yr mo →
      (targetData (goalLookup goals yr mo) yr mo).length = daysInMonth yr mo ∧
      (∀ k, k < daysInMonth yr mo →
        (targetData (goalLookup goals yr mo) yr mo).getD k (default, 0) =
          (⟨yr, mo, k + 1⟩,
            goalLookup goals yr mo * ((k + 1 : ℕ) : ℚ) / ((daysInMonth yr mo : ℕ) : ℚ))) ∧
      (∀ j k, j < k → k < daysInMonth yr mo →
        ((targetData (goalLookup goals yr mo) yr mo).getD j (default, 0)).2 <
          ((targetData (goalLookup goals yr mo) yr mo).getD k (default, 0)).2) ∧
      ((targetData (goalLookup goals yr mo) yr mo).getD
        (daysInMonth yr mo - 1) (default, 0)).2 = goalLookup goals yr mo) ∧
    (goalLookup goals yr mo ≤ 0 → targetData (goalLookup goals yr mo) yr mo = []) :=
  targetData_spec (goalLookup goals yr mo) yr mo

set_option maxRecDepth 100000 in
/-- Claim C2, witness: the 2026-Jan goal of 600 minutes produces a
31-point target line ending at 600, February 2024 (a leap year) gets 29
points, and an absent goal produces no target line. -/
theorem C2_month_targets_witness :
    targetData (goalLookup [⟨2026, 1, 600⟩] 2026 1) 2026 1 ≠ [] ∧
    (targetData (goalLookup [⟨2026, 1, 600⟩] 2026 1) 2026 1).length = 31 ∧
    ((targetData (goalLookup [⟨2026, 1, 600⟩] 2026 1) 2026 1).getD 30 (default, 0)).2 =
      goalLookup [⟨2026, 1, 600⟩] 2026 1 ∧
    (targetData (goalLookup [⟨2024, 2, 60⟩] 2024 2) 2024 2).length = 29 ∧
    targetData (goalLookup [] 2026 1) 2026 1 = [] := by
  have hg : (0 : ℚ) < goalLookup [⟨2026, 1, 600⟩] 2026 1 := by
    rw [show goalLookup [⟨2026, 1, 600⟩] 2026 1 = 600 from by with_unfolding_all rfl]
    norm_num
  have hg2 : (0 : ℚ) < goalLookup [⟨2024, 2, 60⟩] 2024 2 := by
    rw [show goalLookup [⟨2024, 2, 60⟩] 2024 2 = 60 from by with_unfolding_all rfl]
    norm_num
  have h := C2_month_targets [⟨2026, 1, 600⟩] 2026 1
  refine ⟨h.1.mpr hg, ?_, ?_, ?_, ?_⟩
  · rw [(h.2.1 hg).1]
    decide
  · have hlast := (h.2.1 hg).2.2.2
    rw [show daysInMonth 2026 1 - 1 = 30 from by decide] at hlast
    exact hlast
  · rw [((C2_month_targets [⟨2024, 2, 60⟩] 2024 2).2.1 hg2).1]
    decide
  · exact (C2_month_targets [] 2026 1).2.2 (le_refl 0)

theorem dailyMins_nonneg (obs : List Obs) (h : ∀ o ∈ obs, 0 ≤ o.LearningTime) :
    ∀ x ∈ dailyMins obs, 0 ≤ x := by
  intro x hx
  obtain ⟨dt, _, rfl⟩ := List.mem_map.mp hx
  apply List.sum_nonneg
  intro y hy
  obtain ⟨o, ho, rfl⟩ := List.mem_map.mp hy
  exact h o (List.mem_of_mem_filter ho)

theorem cumsum_mono (xs : List ℚ) (hx : ∀ x ∈ xs, 0 ≤ x) (i j : ℕ) (hij : i ≤ j)
    (hj : j < xs.length) : (cumsum 0 xs).getD i 0 ≤ (cumsum 0 xs).getD j 0 := by
  rw [cumsum_getD 0 xs i (lt_of_le_of_lt hij hj), cumsum_getD 0 xs j hj]
  simp only [zero_add]
  have h1 : xs.take (j + 1) = xs.take (i + 1) ++ ((xs.drop (i + 1)).take (j - i)) := by
    rw [← List.take_add]
    congr 1
    omega
  rw [h1, List.sum_append]
  have h2 : 0 ≤ ((xs.drop (i + 1)).take (j - i)).sum := by
    apply List.sum_nonneg
    intro x hxm
    exact hx x (List.drop_subset _ _ (List.take_subset _ _ hxm))
  linarith

set_option maxRecDepth 100000 in
/-- Claim C4: each point's `cumulative_total` equals the sum of the
gap-filled minutes of all points up to and including it; the column is
non-decreasing when the observations carry non-negative minutes (as the
data model requires); and the four-observation scenario produces
exactly the specified three-day series. -/
theorem C4_cumulative_total (obs : List Obs) :
    (∀ i, i < (analyzeData obs).length →
      ((analyzeData obs).getD i default).Cumulative_Time =
        (((analyzeData obs).map SeriesPoint.LearningTime).take (i + 1)).sum) ∧
    ((∀ o ∈ obs, 0 ≤ o.LearningTime) →
      ∀ i j, i ≤ j → j < (analyzeData obs).length →
        ((analyzeData obs).getD i default).Cumulative_Time ≤
          ((analyzeData obs).getD j default).Cumulative_Time) ∧
    (analyzeData [⟨⟨2026, 1, 1⟩, 30⟩, ⟨⟨2026, 1, 1⟩, 20⟩, ⟨⟨2026, 1, 3⟩, 10⟩]).map
        (fun p => (p.Date, p.LearningTime, p.Cumulative_Time)) =
      [(⟨2026, 1, 1⟩, 50, 50), (⟨2026, 1, 2⟩, 0, 50), (⟨2026, 1, 3⟩, 10, 60)] := by
  refine ⟨?_, ?_, by with_unfolding_all rfl⟩
  · intro i hi
    rw [analyzeData_length] at hi
    rw [analyzeData_getD obs i hi]
    dsimp only
    rw [analyzeData_map_LearningTime,
      cumsum_getD 0 _ i (by rw [dailyMins_length]; exact hi), zero_add]
  · intro h i j hij hj
    rw [analyzeData_length] at hj
    have hi := lt_of_le_of_lt hij hj
    rw [analyzeData_getD obs i hi, analyzeData_getD obs j hj]
    dsimp only
    exact cumsum_mono (dailyMins obs) (dailyMins_nonneg obs h) i j hij
      (by rw [dailyMins_length]; exact hj)

set_option maxRecDepth 100000 in
/-- Claim C4, witness: the cumulative formula, and monotonicity between
indices 1 and 2, on the scenario observation set. -/
theorem C4_cumulative_total_witness :
    ((analyzeData [⟨⟨2026, 1, 1⟩, 30⟩, ⟨⟨2026, 1, 1⟩, 20⟩, ⟨⟨2026, 1, 3⟩, 10⟩]).getD 2
      default).Cumulative_Time =
      (((analyzeData [⟨⟨2026, 1, 1⟩, 30⟩, ⟨⟨2026, 1, 1⟩, 20⟩, ⟨⟨2026, 1, 3⟩, 10⟩]).map
        SeriesPoint.LearningTime).take 3).sum ∧
    ((analyzeData [⟨⟨2026, 1, 1⟩, 30⟩, ⟨⟨2026, 1, 1⟩, 20⟩, ⟨⟨2026, 1, 3⟩, 10⟩]).getD 1
      default).Cumulative_Time ≤
      ((analyzeData [⟨⟨2026, 1, 1⟩, 30⟩, ⟨⟨2026, 1, 1⟩, 20⟩, ⟨⟨2026, 1, 3⟩, 10⟩]).getD 2
        default).Cumulative_Time := by
  constructor
  · exact (C4_cumulative_total _).1 2 (by decide)
  · apply (C4_cumulative_total _).2.1
    · intro o ho
      fin_cases ho <;> norm_num
    · norm_num
    · decide

theorem windowOf_take (xs : List ℚ) (w i : ℕ) (hi : i < xs.length) :
    windowOf w (xs.take (i + 1)) = (xs.drop (i + 1 - min w (i + 1))).take (min w (i + 1)) ∧
    (windowOf w (xs.take (i + 1))).length = min w (i + 1) := by
  have hlen : (xs.take (i + 1)).length = i + 1 := by
    rw [List.length_take]
    omega
  constructor
  · unfold windowOf
    rw [hlen, List.drop_take]
    have e1 : i + 1 - w = i + 1 - min w (i + 1) := by omega
    have e2 : i + 1 - (i + 1 - w) = min w (i + 1) := by omega
    rw [e2, e1]
  · unfold windowOf
    rw [List.length_drop, hlen]
    omega

/-- Claim C1: in the daily series, `moving_avg_60d` at 0-based index
`i` is the arithmetic mean of the gap-filled minutes over indices
`[max(0, i - 59), i]`, a window of width `min(60, i + 1)`; in
particular it is defined (and given by this formula) at every index. -/
theorem C1_moving_average (obs : List Obs) (i : ℕ) (hi : i < (analyzeData obs).length) :
    ((analyzeData obs).getD i default).Moving_Avg_60d =
      ((((analyzeData obs).map SeriesPoint.LearningTime).drop (i + 1 - min 60 (i + 1))).take
          (min 60 (i + 1))).sum / ((min 60 (i + 1) : ℕ) : ℚ) := by
  rw [analyzeData_length] at hi
  rw [analyzeData_getD obs i hi]
  dsimp only
  have hx : i < (dailyMins obs).length := by
    rw [dailyMins_length]
    exact hi
  rw [analyzeData_map_LearningTime, rollingMean_getD 60 (dailyMins obs) i hx,
    (windowOf_take (dailyMins obs) 60 i hx).2, (windowOf_take (dailyMins obs) 60 i hx).1]

set_option maxRecDepth 100000 in
/-- Claim C1, witness: the windowed-mean formula at index 1 of the
scenario series, whose value is the expanding-window mean 25. -/
theorem C1_moving_average_witness :
    ((analyzeData [⟨⟨2026, 1, 1⟩, 30⟩, ⟨⟨2026, 1, 1⟩, 20⟩, ⟨⟨2026, 1, 3⟩, 10⟩]).getD 1
      default).Moving_Avg_60d =
      ((((analyzeData [⟨⟨2026, 1, 1⟩, 30⟩, ⟨⟨2026, 1, 1⟩, 20⟩, ⟨⟨2026, 1, 3⟩, 10⟩]).map
          SeriesPoint.LearningTime).drop (1 + 1 - min 60 (1 + 1))).take (min 60 (1 + 1))).sum /
        ((min 60 (1 + 1) : ℕ) : ℚ) ∧
    ((analyzeData [⟨⟨2026, 1, 1⟩, 30⟩, ⟨⟨2026, 1, 1⟩, 20⟩, ⟨⟨2026, 1, 3⟩, 10⟩]).getD 1
      default).Moving_Avg_60d = 25 :=
  ⟨C1_moving_average _ 1 (by decide), by with_unfolding_all rfl⟩

theorem monthRows_length (series : List SeriesPoint) (yr mo : ℕ) :
    (monthRows series yr mo).length = (monthSlice series yr mo).length := by
  simp [monthRows, List.length_zipWith, cumsum_length]

theorem monthRows_getD (series : List SeriesPoint) (yr mo : ℕ) (j : ℕ)
    (hj : j < (monthSlice series yr mo).length) :
    (monthRows series yr mo).getD j default =
      ⟨((monthSlice series yr mo).getD j default).Date,
       ((monthSlice series yr mo).getD j default).LearningTime,
       ((monthSlice series yr mo).getD j default).Cumulative_Time,
       ((monthSlice series yr mo).getD j default).Moving_Avg_60d,
       (cumsum 0 ((monthSlice series yr mo).map SeriesPoint.LearningTime)).getD j 0⟩ := by
  unfold monthRows
  rw [zipWith_getD _ _ _ default 0 j hj
    (by rw [cumsum_length, List.length_map]; exact hj)]

theorem analyzeData_head_le (obs : List Obs) :
    ∀ p ∈ analyzeData obs, dateLe ((analyzeData obs).getD 0 default).Date p.Date := by
  have hpw := analyzeData_pairwise obs
  cases hl : analyzeData obs with
  | nil => intro p hp; simp at hp
  | cons p0 rest =>
    rw [hl] at hpw
    intro p hp
    rcases List.mem_cons.mp hp with rfl | hp2
    · exact dateLe_refl _
    · exact dateLe_of_dateLt ((List.pairwise_cons.mp hpw).1 p hp2)

theorem preMonthSum_first_month (obs : List Obs) (yr mo : ℕ)
    (hin : inMonthRange yr mo ((analyzeData obs).getD 0 default).Date) :
    preMonthSum (analyzeData obs) yr mo = 0 := by
  unfold preMonthSum
  have hfil : (analyzeData obs).filter
      (fun p => decide (dateLt p.Date (monthStart yr mo))) = [] := by
    apply List.filter_eq_nil_iff.mpr
    intro p hp
    simp only [decide_eq_true_eq]
    exact not_dateLt_of_dateLe (dateLe_trans hin.1 (analyzeData_head_le obs p hp))
  rw [hfil]
  rfl

/-- Claim C3 (corrected): the month view selects exactly the series
points with date in `[month_start, next_month_start)` and recomputes
`monthly_cumulative` as the running sum of minutes over the sliced
points only; at every sliced point the full-history `cumulative_total`
equals the pre-month minutes total plus the monthly cumulative, so the
two columns coincide exactly when the minutes logged before the month
sum to zero — which holds in particular (but, contrary to the
unamended claim, not only) for the first month of history. -/
theorem C3_month_cumulative_amended (obs : List Obs) (yr mo : ℕ) :
    (∀ p, p ∈ monthSlice (analyzeData obs) yr mo ↔
      p ∈ analyzeData obs ∧ dateLe (monthStart yr mo) p.Date ∧
        dateLt p.Date (nextMonthStart yr mo)) ∧
    (∀ j, j < (monthRows (analyzeData obs) yr mo).length →
      ((monthRows (analyzeData obs) yr mo).getD j default).Monthly_Cumulative =
        (((monthSlice (analyzeData obs) yr mo).map SeriesPoint.LearningTime).take
          (j + 1)).sum) ∧
    (∀ j, j < (monthRows (analyzeData obs) yr mo).length →
      ((monthRows (analyzeData obs) yr mo).getD j default).Cumulative_Time =
        preMonthSum (analyzeData obs) yr mo +
          ((monthRows (analyzeData obs) yr mo).getD j default).Monthly_Cumulative) ∧
    (inMonthRange yr mo ((analyzeData obs).getD 0 default).Date →
      preMonthSum (analyzeData obs) yr mo = 0) := by
  refine ⟨?_, ?_, ?_, preMonthSum_first_month obs yr mo⟩
  · intro p
    simp [monthSlice, List.mem_filter, inMonthRange]
  · intro j hj
    rw [monthRows_length] at hj
    rw [monthRows_getD _ _ _ j hj]
    dsimp only
    rw [cumsum_getD 0 _ j (by rw [List.length_map]; exact hj), zero_add]
  · intro j hj
    rw [monthRows_length] at hj
    rw [monthRows_getD _ _ _ j hj]
    dsimp only
    have hsplit := monthCum_split yr mo (analyzeData obs) 0 (analyzeData_pairwise obs)
      (analyzeData_cumConsistent obs) j hj
    rw [hsplit, zero_add]

set_option maxRecDepth 100000 in
/-- Claim C3, counterexample: with observations 0 minutes on 2026-01-31
and 10 minutes on 2026-02-01, the February 2026 slice (not the first
month of history, which starts in January) has a point whose
`monthly_cumulative` equals its full-history `cumulative_total` (both
10), because the pre-February minutes sum to zero. -/
theorem C3_counterexample_equal_in_second_month :
    ((monthRows (analyzeData [⟨⟨2026, 1, 31⟩, 0⟩, ⟨⟨2026, 2, 1⟩, 10⟩]) 2026 2).map
        (fun q => (q.Date, q.Cumulative_Time, q.Monthly_Cumulative)) =
      [(⟨2026, 2, 1⟩, 10, 10)]) ∧
    ((analyzeData [⟨⟨2026, 1, 31⟩, 0⟩, ⟨⟨2026, 2, 1⟩, 10⟩]).getD 0 default).Date =
      ⟨2026, 1, 31⟩ := by
  constructor
  · with_unfolding_all rfl
  · with_unfolding_all rfl

set_option maxRecDepth 100000 in
/-- Claim C3, witness: the amended relations evaluated on the
two-observation history at February 2026 (index 0 of the slice) and the
zero pre-month sum for the first month, January 2026. -/
theorem C3_month_cumulative_amended_witness :
    (((monthRows (analyzeData [⟨⟨2026, 1, 31⟩, 0⟩, ⟨⟨2026, 2, 1⟩, 10⟩]) 2026 2).getD 0
        default).Monthly_Cumulative =
      (((monthSlice (analyzeData [⟨⟨2026, 1, 31⟩, 0⟩, ⟨⟨2026, 2, 1⟩, 10⟩]) 2026 2).map
          SeriesPoint.LearningTime).take 1).sum) ∧
    (((monthRows (analyzeData [⟨⟨2026, 1, 31⟩, 0⟩, ⟨⟨2026, 2, 1⟩, 10⟩]) 2026 2).getD 0
        default).Cumulative_Time =
      preMonthSum (analyzeData [⟨⟨2026, 1, 31⟩, 0⟩, ⟨⟨2026, 2, 1⟩, 10⟩]) 2026 2 +
        ((monthRows (analyzeData [⟨⟨2026, 1, 31⟩, 0⟩, ⟨⟨2026, 2, 1⟩, 10⟩]) 2026 2).getD 0
          default).Monthly_Cumulative) ∧
    preMonthSum (analyzeData [⟨⟨2026, 1, 31⟩, 0⟩, ⟨⟨2026, 2, 1⟩, 10⟩]) 2026 1 = 0 :=
  ⟨(C3_month_cumulative_amended [⟨⟨2026, 1, 31⟩, 0⟩, ⟨⟨2026, 2, 1⟩, 10⟩] 2026 2).2.1 0
      (by decide),
   (C3_month_cumulative_amended [⟨⟨2026, 1, 31⟩, 0⟩, ⟨⟨2026, 2, 1⟩, 10⟩] 2026 2).2.2.1 0
      (by decide),
   (C3_month_cumulative_amended [⟨⟨2026, 1, 31⟩, 0⟩, ⟨⟨2026, 2, 1⟩, 10⟩] 2026 1).2.2.2
      (by decide)⟩

theorem chartDailySeries_eq_map (obs : List Obs) :
    chartDailySeries obs = (analyzeData obs).map
      (fun p => ChartDaily.mk p.Date p.LearningTime p.Moving_Avg_60d) := by
  unfold chartDailySeries analyzeData
  rw [List.map_map]
  rfl

theorem analyzeData_dates_valid {obs : List Obs} (hobs : ∀ o ∈ obs, o.Date.Valid) :
    ∀ p ∈ analyzeData obs, p.Date.Valid := by
  intro p hp
  have hmem : p.Date ∈ dailyDates obs := by
    rw [← analyzeData_map_Date obs]
    exact List.mem_map_of_mem _ hp
  exact dailyDates_valid hobs _ hmem

/-- Claim C10: on the same normalized observations, with valid dates
and a valid selected month, `generate_chart.process_data` for that
month produces exactly the app's month rows — same date, minutes,
moving average, and monthly cumulative — even though the chart filters
the daily series by equality of the `"%Y-%m"` date rendering while the
app filters by the `[month_start, next_month_start)` date range. -/
theorem C10_app_chart_agree (obs : List Obs) (yr mo : ℕ)
    (hobs : ∀ o ∈ obs, o.Date.Valid) (hm1 : 1 ≤ mo) (hm2 : mo ≤ 12) :
    processData obs yr mo =
      (monthRows (analyzeData obs) yr mo).map
        (fun q => ChartPoint.mk q.Date q.LearningTime q.Moving_Avg_60d
          q.Monthly_Cumulative) := by
  have hfil : (analyzeData obs).filter
      (fun p => p.Date.y == yr && p.Date.m == mo) = monthSlice (analyzeData obs) yr mo := by
    unfold monthSlice
    apply List.filter_congr
    intro p hp
    rw [Bool.eq_iff_iff]
    simp only [Bool.and_eq_true, beq_iff_eq, decide_eq_true_eq]
    exact (inMonthRange_iff (analyzeData_dates_valid hobs p hp) yr mo hm1 hm2).symm
  unfold processData
  rw [chartDailySeries_eq_map]
  rw [List.filter_map, show ((fun (r : ChartDaily) => r.date.y == yr && r.date.m == mo) ∘
    (fun p : SeriesPoint => ChartDaily.mk p.Date p.LearningTime p.Moving_Avg_60d)) =
    (fun (p : SeriesPoint) => p.Date.y == yr && p.Date.m == mo) from rfl, hfil]
  dsimp only
  rw [List.map_map, show (ChartDaily.minutes ∘
    (fun p : SeriesPoint => ChartDaily.mk p.Date p.LearningTime p.Moving_Avg_60d)) =
    SeriesPoint.LearningTime from rfl]
  rw [List.zipWith_map_left]
  unfold monthRows
  rw [List.map_zipWith]

set_option maxRecDepth 100000 in
/-- Claim C10, witness: both pipelines produce the same single February
2026 row on a history that straddles the January/February boundary. -/
theorem C10_app_chart_agree_witness :
    (∀ o ∈ [(⟨⟨2026, 1, 31⟩, 20⟩ : Obs), ⟨⟨2026, 2, 1⟩, 10⟩], o.Date.Valid) ∧
    processData [⟨⟨2026, 1, 31⟩, 20⟩, ⟨⟨2026, 2, 1⟩, 10⟩] 2026 2 =
      (monthRows (analyzeData [⟨⟨2026, 1, 31⟩, 20⟩, ⟨⟨2026, 2, 1⟩, 10⟩]) 2026 2).map
        (fun q => ChartPoint.mk q.Date q.LearningTime q.Moving_Avg_60d
          q.Monthly_Cumulative) :=
  ⟨by decide,
   C10_app_chart_agree [⟨⟨2026, 1, 31⟩, 20⟩, ⟨⟨2026, 2, 1⟩, 10⟩] 2026 2 (by decide)
     (by norm_num) (by norm_num)⟩
